import Mathlib

/-!
Verification development for the game-orchestration and adaptive
move-scheduling subsystem (`engine.py`, `game.py`).

Machine floats are embedded as exact rationals (`ℚ`); the loosely-typed
event payloads are embedded as explicit inductive types.  Definitions
mirror the source line by line; theorems settle the specification's
claims about them.
-/

namespace Spec2Proof

/-- Time-control categories returned by `Engine.classify_tc`. -/
inductive TC where
  | hyperbullet
  | bullet
  | blitz
  | rapid
  | classical
deriving DecidableEq, Repr

/-- `Engine.classify_tc` (engine.py lines 197–207): threshold chain on
base time and increment. -/
def classify_tc (base inc : ℚ) : TC :=
  if base ≤ 60 then .hyperbullet
  else if base ≤ 120 ∨ (base ≤ 180 ∧ inc ≤ 1) then .bullet
  else if base ≤ 600 ∨ (base ≤ 900 ∧ inc ≤ 2) then .blitz
  else if base ≤ 3600 then .rapid
  else .classical

/-- Whether a category is in the python tuple `("bullet", "hyperbullet")`. -/
def TC.isBulletish : TC → Bool
  | .bullet => true
  | .hyperbullet => true
  | _ => false

/-- Per-category `(base_frac, cap)` pairs (engine.py lines 220–230). -/
def baseFracCap : TC → ℚ × ℚ
  | .hyperbullet => (6/1000, 5/100)
  | .bullet => (15/1000, 12/100)
  | .blitz => (6/100, 12/10)
  | .rapid => (12/100, 4)
  | .classical => (20/100, 12)

/-- engine.py line 232: `think_time = max(0.01, my_time * base_frac +
min(cap, increment * 2.0))`. -/
def thinkBase (tc : TC) (myTime inc : ℚ) : ℚ :=
  let fc := baseFracCap tc
  max (1/100) (myTime * fc.1 + min fc.2 (inc * 2))

/-- engine.py lines 245–248: the tactical boost step.  The code computes
`min(think_time * boost, max(think_time * boost, 10.0))` for non-bullet
categories, transcribed verbatim. -/
def tacticalBoost (tc : TC) (tacticalScore : ℕ) (inCheck : Bool) (t : ℚ) : ℚ :=
  if tacticalScore ≥ 3 ∨ inCheck then
    let boost : ℚ := if ¬ tc.isBulletish then 18/10 else 14/10
    min (t * boost) (if ¬ tc.isBulletish then max (t * boost) 10 else t * boost)
  else t

/-- engine.py lines 251–255: divide by the move-overhead multiplier when
it is truthy (≠ 0) and different from 1.0. -/
def overheadStep (mult t : ℚ) : ℚ :=
  if mult ≠ 0 ∧ mult ≠ 1 then t / mult else t

/-- engine.py lines 257–258: clamp to the configured fixed per-move limit
when `limit_config.time` is truthy (present and ≠ 0). -/
def limitStep : Option ℚ → ℚ → ℚ
  | some l, t => if l ≠ 0 then min t l else t
  | none, t => t

/-- engine.py lines 261–267: emergency safety caps, applied for the
bullet/hyperbullet categories only. -/
def emergencyCaps (tc : TC) (myTime t : ℚ) : ℚ :=
  if tc.isBulletish then
    if myTime > 30 then max (3/100) (min t (35/100))
    else if myTime > 3 then max (2/100) (min t (12/100))
    else 1/100
  else t

/-- The full think-time computation of `Engine.make_move`
(engine.py lines 220–267), with the category as an explicit input. -/
def computeThinkTime (tc : TC) (myTime inc : ℚ) (tacticalScore : ℕ)
    (inCheck : Bool) (mult : ℚ) (lim : Option ℚ) : ℚ :=
  emergencyCaps tc myTime
    (limitStep lim
      (overheadStep mult
        (tacticalBoost tc tacticalScore inCheck
          (thinkBase tc myTime inc))))

/-- engine.py lines 216–218: `make_move` selects the mover's clock by the
side to move and derives the category from the maximum of the two current
clocks and the increment. -/
def makeMoveThinkTime (turnWhite : Bool) (whiteTime blackTime inc : ℚ)
    (tacticalScore : ℕ) (inCheck : Bool) (mult : ℚ) (lim : Option ℚ) : ℚ :=
  computeThinkTime (classify_tc (max whiteTime blackTime) inc)
    (if turnWhite then whiteTime else blackTime) inc tacticalScore inCheck mult lim

/-- Modelled from the spec's words (for comparison with the source's
`tacticalBoost`): the boosted budget "floored at 10 s if that is larger" for
non-bullet categories. -/
def tacticalBoostFlooredSpec (tc : TC) (ts : ℕ) (chk : Bool) (t : ℚ) : ℚ :=
  if 3 ≤ ts ∨ chk = true then
    if tc.isBulletish then t * (14/10) else max (t * (18/10)) 10
  else t

theorem tacticalBoost_apply (tc : TC) (ts : ℕ) (chk : Bool) (t : ℚ) :
    tacticalBoost tc ts chk t =
      if 3 ≤ ts ∨ chk = true then t * (if tc.isBulletish then 14/10 else 18/10) else t := by
  unfold tacticalBoost
  cases htc : tc.isBulletish <;>
    simp [htc, min_eq_left (le_max_left _ _)]

theorem thinkBase_pos (tc : TC) (myTime inc : ℚ) : 0 < thinkBase tc myTime inc :=
  lt_of_lt_of_le (by norm_num) (le_max_left _ _)

theorem tacticalBoost_pos (tc : TC) (ts : ℕ) (chk : Bool) {t : ℚ} (ht : 0 < t) :
    0 < tacticalBoost tc ts chk t := by
  rw [tacticalBoost_apply]
  split_ifs <;> first
    | exact mul_pos ht (by norm_num)
    | exact ht

theorem overheadStep_pos {mult t : ℚ} (hm : 0 < mult) (ht : 0 < t) :
    0 < overheadStep mult t := by
  unfold overheadStep
  split_ifs with h
  · exact div_pos ht hm
  · exact ht

theorem limitStep_some_pos {L t : ℚ} (hL : 0 < L) (ht : 0 < t) :
    0 < limitStep (some L) t := by
  simp only [limitStep]
  split_ifs with h
  · exact lt_min ht hL
  · exact ht

theorem limitStep_some_le {L : ℚ} (t : ℚ) (hL : L ≠ 0) : limitStep (some L) t ≤ L := by
  simp only [limitStep]
  rw [if_pos hL]
  exact min_le_right _ _

/-- C2 (amended): given a positive overhead multiplier and a configured
positive per-move limit `L`, the think time of `make_move` is always strictly
positive; for the non-bullet categories it never exceeds `L`; for
bullet/hyperbullet the emergency caps may raise it above a very small `L`, but
it never exceeds `max L 0.03`. -/
theorem compute_think_time_positive_bounded (tc : TC) (myTime inc : ℚ)
    (ts : ℕ) (chk : Bool) (mult L : ℚ) (hm : 0 < mult) (hL : 0 < L) :
    0 < computeThinkTime tc myTime inc ts chk mult (some L) ∧
    computeThinkTime tc myTime inc ts chk mult (some L) ≤ max L (3/100) ∧
    (tc.isBulletish = false → computeThinkTime tc myTime inc ts chk mult (some L) ≤ L) := by
  have hpre : 0 < limitStep (some L)
      (overheadStep mult (tacticalBoost tc ts chk (thinkBase tc myTime inc))) :=
    limitStep_some_pos hL (overheadStep_pos hm (tacticalBoost_pos _ _ _ (thinkBase_pos _ _ _)))
  have hpreL : limitStep (some L)
      (overheadStep mult (tacticalBoost tc ts chk (thinkBase tc myTime inc))) ≤ L :=
    limitStep_some_le _ (ne_of_gt hL)
  unfold computeThinkTime emergencyCaps
  set t3 := limitStep (some L)
      (overheadStep mult (tacticalBoost tc ts chk (thinkBase tc myTime inc))) with ht3
  cases htc : tc.isBulletish with
  | false =>
      refine ⟨hpre, le_trans hpreL (le_max_left _ _), fun _ => hpreL⟩
  | true =>
      simp only [if_true]
      refine ⟨?_, ?_, fun hfalse => by simp [htc] at hfalse⟩
      · split_ifs with h30 h3
        · exact lt_of_lt_of_le (by norm_num) (le_max_left _ _)
        · exact lt_of_lt_of_le (by norm_num) (le_max_left _ _)
        · norm_num
      · split_ifs with h30 h3
        · exact max_le (le_trans (by norm_num) (le_max_right _ _))
            (le_trans (min_le_left _ _) (le_trans hpreL (le_max_left _ _)))
        · exact max_le (le_trans (by norm_num) (le_max_right _ _))
            (le_trans (min_le_left _ _) (le_trans hpreL (le_max_left _ _)))
        · exact le_trans (by norm_num) (le_max_right _ _)

/-- Witness for `compute_think_time_positive_bounded` at concrete inputs. -/
theorem compute_think_time_positive_bounded_witness :
    0 < computeThinkTime .rapid 600 5 0 false 1 (some 4) ∧
    computeThinkTime .rapid 600 5 0 false 1 (some 4) ≤ max 4 (3/100) ∧
    (TC.isBulletish .rapid = false → computeThinkTime .rapid 600 5 0 false 1 (some 4) ≤ 4) :=
  compute_think_time_positive_bounded .rapid 600 5 0 false 1 4 (by norm_num) (by norm_num)

/-- C2 (counterexample to the claim as stated): with a configured per-move
limit of 0.005 s, the bullet emergency cap returns 0.01 s, exceeding the
configured limit. -/
theorem compute_think_time_exceeds_limit :
    computeThinkTime .bullet 2 0 0 false 1 (some (1/200)) = 1/100 ∧
    ¬ computeThinkTime .bullet 2 0 0 false 1 (some (1/200)) ≤ 1/200 := by
  norm_num [computeThinkTime, emergencyCaps, limitStep, overheadStep,
    tacticalBoost, thinkBase, baseFracCap, TC.isBulletish]

/-- C5 (counterexample to the claim as stated): for a non-bullet category with
boosted value 1.8 s, the code's boost expression `min(x, max(x, 10))` yields
1.8 s, not the 10-second floor the claim describes. -/
theorem tactical_boost_no_floor_counterexample :
    tacticalBoost .rapid 3 false 1 = 9/5 ∧
    tacticalBoostFlooredSpec .rapid 3 false 1 = 10 ∧
    (9/5 : ℚ) ≠ 10 := by
  norm_num [tacticalBoost, tacticalBoostFlooredSpec, TC.isBulletish]

/-- C5 (amended): when the tactical score is at least 3 or the side to move is
in check, the budget is multiplied by 1.8 for non-bullet categories and by 1.4
for bullet/hyperbullet — with no 10-second floor, since the code's expression
`min(x, max(x, 10.0))` always equals `x`; otherwise the budget is unchanged. -/
theorem tactical_boost_spec (tc : TC) (ts : ℕ) (chk : Bool) (t : ℚ) :
    (3 ≤ ts ∨ chk = true →
      tacticalBoost tc ts chk t = t * (if tc.isBulletish then 14/10 else 18/10)) ∧
    (¬ (3 ≤ ts ∨ chk = true) → tacticalBoost tc ts chk t = t) := by
  rw [tacticalBoost_apply]
  constructor
  · intro h; rw [if_pos h]
  · intro h; rw [if_neg h]

/-- Witness for `tactical_boost_spec` at concrete inputs. -/
theorem tactical_boost_spec_witness :
    tacticalBoost .blitz 4 false 2 = 2 * (if TC.isBulletish .blitz then 14/10 else 18/10) ∧
    tacticalBoost .bullet 1 false 2 = 2 :=
  ⟨(tactical_boost_spec .blitz 4 false 2).1 (Or.inl (by norm_num)),
   (tactical_boost_spec .bullet 1 false 2).2 (by simp)⟩

/-- C6: for the bullet/hyperbullet categories the final think time is the
pre-cap budget clamped by the emergency caps on the mover's own clock — into
`[0.03, 0.35]` when the clock exceeds 30 s, into `[0.02, 0.12]` when it
exceeds 3 s (and is ≤ 30 s), and exactly 0.01 s otherwise; in particular the
bullet category with own clock 2 s always yields exactly 0.01 s. -/
theorem emergency_caps_spec (tc : TC) (myTime inc : ℚ) (ts : ℕ) (chk : Bool)
    (mult : ℚ) (lim : Option ℚ) (hb : tc.isBulletish = true) :
    (30 < myTime →
      computeThinkTime tc myTime inc ts chk mult lim =
        max (3/100) (min (limitStep lim (overheadStep mult
          (tacticalBoost tc ts chk (thinkBase tc myTime inc)))) (35/100)) ∧
      3/100 ≤ computeThinkTime tc myTime inc ts chk mult lim ∧
      computeThinkTime tc myTime inc ts chk mult lim ≤ 35/100) ∧
    (3 < myTime → myTime ≤ 30 →
      computeThinkTime tc myTime inc ts chk mult lim =
        max (2/100) (min (limitStep lim (overheadStep mult
          (tacticalBoost tc ts chk (thinkBase tc myTime inc)))) (12/100)) ∧
      2/100 ≤ computeThinkTime tc myTime inc ts chk mult lim ∧
      computeThinkTime tc myTime inc ts chk mult lim ≤ 12/100) ∧
    (myTime ≤ 3 → computeThinkTime tc myTime inc ts chk mult lim = 1/100) ∧
    computeThinkTime .bullet 2 inc ts chk mult lim = 1/100 := by
  have hlast : computeThinkTime .bullet 2 inc ts chk mult lim = 1/100 := by
    unfold computeThinkTime emergencyCaps TC.isBulletish
    norm_num
  refine ⟨?_, ?_, ?_, hlast⟩
  · intro h30
    have heq : computeThinkTime tc myTime inc ts chk mult lim =
        max (3/100) (min (limitStep lim (overheadStep mult
          (tacticalBoost tc ts chk (thinkBase tc myTime inc)))) (35/100)) := by
      unfold computeThinkTime emergencyCaps
      rw [hb]
      simp only [if_pos rfl, if_pos h30, if_true]
    refine ⟨heq, ?_, ?_⟩
    · rw [heq]; exact le_max_left _ _
    · rw [heq]; exact max_le (by norm_num) (min_le_right _ _)
  · intro h3 h30
    have hn30 : ¬ myTime > 30 := by linarith
    have heq : computeThinkTime tc myTime inc ts chk mult lim =
        max (2/100) (min (limitStep lim (overheadStep mult
          (tacticalBoost tc ts chk (thinkBase tc myTime inc)))) (12/100)) := by
      unfold computeThinkTime emergencyCaps
      rw [hb]
      simp only [if_pos rfl, if_neg hn30, if_pos h3, if_true]
    refine ⟨heq, ?_, ?_⟩
    · rw [heq]; exact le_max_left _ _
    · rw [heq]; exact max_le (by norm_num) (min_le_right _ _)
  · intro hle
    have hn30 : ¬ myTime > 30 := by linarith
    have hn3 : ¬ myTime > 3 := by linarith
    unfold computeThinkTime emergencyCaps
    rw [hb]
    simp only [if_pos rfl, if_neg hn30, if_neg hn3, if_true]

/-- Witness for `emergency_caps_spec` at concrete inputs. -/
theorem emergency_caps_spec_witness :
    computeThinkTime .bullet 2 1 0 false 1 none = 1/100 :=
  ((emergency_caps_spec .bullet 2 1 0 false 1 none rfl).2.2.1 (by norm_num))

/-- C3: `classify_tc` is deterministic (it is a function) and returns, testing
thresholds in order: hyperbullet when `base ≤ 60`; bullet when `base ≤ 120` or
(`base ≤ 180` and `inc ≤ 1`); blitz when `base ≤ 600` or (`base ≤ 900` and
`inc ≤ 2`); rapid when `base ≤ 3600`; otherwise classical — together with the
seven concrete evaluations listed in the specification. -/
theorem classify_tc_spec (base inc : ℚ) :
    (classify_tc base inc = .hyperbullet ↔ base ≤ 60) ∧
    (classify_tc base inc = .bullet ↔
      ¬ base ≤ 60 ∧ (base ≤ 120 ∨ (base ≤ 180 ∧ inc ≤ 1))) ∧
    (classify_tc base inc = .blitz ↔
      ¬ base ≤ 60 ∧ ¬ (base ≤ 120 ∨ (base ≤ 180 ∧ inc ≤ 1)) ∧
      (base ≤ 600 ∨ (base ≤ 900 ∧ inc ≤ 2))) ∧
    (classify_tc base inc = .rapid ↔
      ¬ base ≤ 60 ∧ ¬ (base ≤ 120 ∨ (base ≤ 180 ∧ inc ≤ 1)) ∧
      ¬ (base ≤ 600 ∨ (base ≤ 900 ∧ inc ≤ 2)) ∧ base ≤ 3600) ∧
    (classify_tc base inc = .classical ↔
      ¬ base ≤ 60 ∧ ¬ (base ≤ 120 ∨ (base ≤ 180 ∧ inc ≤ 1)) ∧
      ¬ (base ≤ 600 ∨ (base ≤ 900 ∧ inc ≤ 2)) ∧ ¬ base ≤ 3600) ∧
    classify_tc 40 0 = .hyperbullet ∧
    classify_tc 120 0 = .bullet ∧
    classify_tc 180 1 = .bullet ∧
    classify_tc 300 0 = .blitz ∧
    classify_tc 900 2 = .blitz ∧
    classify_tc 1800 0 = .rapid ∧
    classify_tc 5400 0 = .classical := by
  refine ⟨?_, ?_, ?_, ?_, ?_, by decide, by decide, by decide, by decide,
    by decide, by decide, by decide⟩ <;>
    (unfold classify_tc; split_ifs <;> simp_all)

/-- C10: `make_move` derives its time-control category from the maximum of the
two current clock readings and the increment (not from the game's fixed base
time); once both clocks are at 120 seconds or less the category is bullet or
hyperbullet, so (for instance) a mover with at most 3 seconds left gets the
fixed 0.01 s emergency think time; and the category changes between moves of a
single game as the clocks run down. -/
theorem make_move_category_from_clocks (turnWhite : Bool)
    (whiteTime blackTime inc : ℚ) (tacticalScore : ℕ) (inCheck : Bool)
    (mult : ℚ) (lim : Option ℚ) :
    (makeMoveThinkTime turnWhite whiteTime blackTime inc tacticalScore inCheck mult lim =
      computeThinkTime (classify_tc (max whiteTime blackTime) inc)
        (if turnWhite then whiteTime else blackTime) inc tacticalScore inCheck mult lim) ∧
    (max whiteTime blackTime ≤ 120 →
      (classify_tc (max whiteTime blackTime) inc).isBulletish = true) ∧
    (whiteTime ≤ 120 → blackTime ≤ 120 → (if turnWhite then whiteTime else blackTime) ≤ 3 →
      makeMoveThinkTime turnWhite whiteTime blackTime inc tacticalScore inCheck mult lim
        = 1/100) ∧
    (classify_tc 5400 0 = .classical ∧ classify_tc (max 110 90) 0 = .bullet) := by
  have hbul : max whiteTime blackTime ≤ 120 →
      (classify_tc (max whiteTime blackTime) inc).isBulletish = true := by
    intro h
    unfold classify_tc TC.isBulletish
    split_ifs <;> simp_all
  refine ⟨rfl, hbul, ?_, by decide, by decide⟩
  intro hw hb hmy
  have hmax : max whiteTime blackTime ≤ 120 := max_le hw hb
  have hcat := hbul hmax
  unfold makeMoveThinkTime computeThinkTime emergencyCaps
  rw [hcat]
  simp only [if_true]
  have h3 : ¬ ((if turnWhite then whiteTime else blackTime) > 30) := by
    intro h; exact absurd hmy (by linarith)
  have h2 : ¬ ((if turnWhite then whiteTime else blackTime) > 3) := by
    intro h; exact absurd hmy (by linarith)
  rw [if_neg h3, if_neg h2]

/-- Witness for `make_move_category_from_clocks` at concrete inputs. -/
theorem make_move_category_from_clocks_witness :
    (classify_tc (max (100 : ℚ) 50) 0).isBulletish = true ∧
    makeMoveThinkTime true 2 100 1 5 false 1 (some 10) = 1/100 :=
  ⟨(make_move_category_from_clocks true 100 50 0 0 false 1 none).2.1 (by norm_num),
   (make_move_category_from_clocks true 2 100 1 5 false 1 (some 10)).2.2.1
     (by norm_num) (by norm_num) (by norm_num)⟩

/-- Engine evaluation scores (python-chess `PovScore`, seen from White):
centipawns or mate-in-`m` (`m > 0`: White mates; `m < 0`: White is mated). -/
inductive Score where
  | cp (v : ℤ)
  | mate (m : ℤ)
deriving DecidableEq, Repr

/-- `Score.is_mate()`. -/
def Score.isMate : Score → Bool
  | .mate _ => true
  | .cp _ => false

/-- engine.py lines 343–351: the comparison value the fallback uses — the
White-perspective centipawn value for non-mate scores, and the constant
`1000000` (White to move) or `-1000000` (Black to move) for ANY mate score,
irrespective of the mate's sign. -/
def wsVal (turnWhite : Bool) (s : Score) : ℤ :=
  match s with
  | .cp v => v
  | .mate _ => if turnWhite then 1000000 else -1000000

/-- engine.py lines 335–354: whether the fallback prefers the secondary
candidate: adopt when the original score is absent; keep (prefer stays
`False`) when only the secondary score is absent; otherwise compare `wsVal`s
(`≥` for White to move, `≤` for Black to move). -/
def preferCandidate (turnWhite : Bool) (origScore newScore : Option Score) : Bool :=
  match origScore with
  | none => true
  | some o =>
    match newScore with
    | none => false
    | some n =>
      if turnWhite then decide (wsVal true o ≤ wsVal true n)
      else decide (wsVal false n ≤ wsVal false o)

/-- engine.py line 313: shallow-depth threshold per category. -/
def shallowThreshold (tc : TC) : ℕ :=
  match tc with
  | .bullet | .hyperbullet | .blitz => 10
  | _ => 18

/-- engine.py lines 314–316: the fallback runs when the reported depth
(`info.get("depth") or 0`) is below the shallow threshold and the position is
tactical (`tactical_score >= 2`) or the side to move is in check. -/
def fallbackTriggered (tc : TC) (resultDepth : Option ℕ) (tacticalScore : ℕ)
    (inCheck : Bool) : Bool :=
  decide (resultDepth.getD 0 < shallowThreshold tc) &&
    (decide (2 ≤ tacticalScore) || inCheck)

/-- engine.py line 318: the bounded extra time of the secondary analysis. -/
def extraTime (tc : TC) (thinkTime : ℚ) : ℚ :=
  if ¬ tc.isBulletish then min (max (thinkTime * (5/2)) 1) 12
  else thinkTime * (12/10)

/-- engine.py lines 326–364: which move the fallback returns — the head of the
secondary principal variation when it exists, differs from the primary move
and `preferCandidate` holds; otherwise the primary move.  Moves are abstract
(naturals). -/
def chooseMove (primary : ℕ) (pv : List ℕ) (turnWhite : Bool)
    (origScore newScore : Option Score) : ℕ :=
  match pv with
  | [] => primary
  | cand :: _ =>
      if cand ≠ primary ∧ preferCandidate turnWhite origScore newScore = true then cand
      else primary

/-- Modelled from the spec's words (for comparison with the source's
`wsVal`): the side-to-move-perspective value with mate scores treated as
SIGNED infinities (a mate for White is `+∞`, a mate against White is `-∞`,
then negated for Black to move). -/
def stmValSignedSpec (turnWhite : Bool) (s : Score) : ℤ :=
  let w : ℤ :=
    match s with
    | .cp v => v
    | .mate m => if 0 < m then 1000000 else -1000000
  if turnWhite then w else -w

/-- C4 (counterexample to the claim as stated): with White to move, a primary
score of +50 cp and a secondary score of mate-in-1 AGAINST White, the code
adopts the secondary candidate although its evaluation, with mate scores
treated as signed infinities, is strictly worse for the side to move. -/
theorem fallback_adopts_worse_mate_counterexample :
    chooseMove 0 [1] true (some (.cp 50)) (some (.mate (-1))) = 1 ∧
    stmValSignedSpec true (.mate (-1)) < stmValSignedSpec true (.cp 50) := by
  constructor
  · rfl
  · decide

/-- C4 (amended): the fallback runs exactly when the reported depth is below
the shallow threshold (10 for bullet/hyperbullet/blitz, 18 otherwise) and the
tactical score is ≥ 2 or the side to move is in check, with extra time
`min(max(thinkTime × 2.5, 1), 12)` for non-bullet categories and
`thinkTime × 1.2` for bullet/hyperbullet; the secondary candidate is adopted
iff it differs from the primary move and is preferred, where preference
defaults to adoption when the original score is absent, to keeping the primary
when only the secondary score is absent, and otherwise compares
White-perspective values in which ANY mate score (regardless of its sign)
counts as the infinity favourable to the side to move. -/
theorem fallback_deepening_spec (tc : TC) (resultDepth : Option ℕ)
    (tacticalScore : ℕ) (inCheck : Bool) (t : ℚ) (primary cand : ℕ)
    (rest : List ℕ) (tw : Bool) (o n : Score) (m m' : ℤ) :
    (fallbackTriggered tc resultDepth tacticalScore inCheck = true ↔
      (resultDepth.getD 0 < shallowThreshold tc ∧ (2 ≤ tacticalScore ∨ inCheck = true))) ∧
    (shallowThreshold tc = if tc = .bullet ∨ tc = .hyperbullet ∨ tc = .blitz then 10 else 18) ∧
    (tc.isBulletish = false → extraTime tc t = min (max (t * (5/2)) 1) 12) ∧
    (tc.isBulletish = true → extraTime tc t = t * (12/10)) ∧
    (chooseMove primary (cand :: rest) tw (some o) (some n) ≠ primary ↔
      (cand ≠ primary ∧ preferCandidate tw (some o) (some n) = true)) ∧
    preferCandidate tw none (some n) = true ∧
    preferCandidate tw (some o) none = false ∧
    (preferCandidate tw (some o) (some n) = true ↔
      (if tw then wsVal true o ≤ wsVal true n else wsVal false n ≤ wsVal false o)) ∧
    wsVal tw (.mate m) = wsVal tw (.mate m') ∧
    wsVal true (.mate m) = 1000000 ∧ wsVal false (.mate m) = -1000000 := by
  refine ⟨?_, ?_, ?_, ?_, ?_, ?_, ?_, ?_, rfl, rfl, rfl⟩
  · unfold fallbackTriggered
    simp
  · cases tc <;> simp [shallowThreshold]
  · intro h
    unfold extraTime
    rw [if_pos (by simp [h])]
  · intro h
    unfold extraTime
    rw [if_neg (by simp [h])]
  · simp only [chooseMove]
    split_ifs with h
    · simp only [ne_eq]
      constructor
      · intro _; exact h
      · intro _; exact h.1
    · simp only [ne_eq, not_true_eq_false, false_iff]
      exact h
  · rfl
  · rfl
  · unfold preferCandidate
    cases tw <;> simp

/-- Witness for `fallback_deepening_spec` at concrete inputs. -/
theorem fallback_deepening_spec_witness :
    extraTime .rapid 2 = min (max ((2 : ℚ) * (5/2)) 1) 12 ∧
    extraTime .bullet 2 = (2 : ℚ) * (12/10) :=
  ⟨(fallback_deepening_spec .rapid none 0 false 2 0 1 [] true (.cp 0) (.cp 0) 0 0).2.2.1 rfl,
   (fallback_deepening_spec .bullet none 0 false 2 0 1 [] true (.cp 0) (.cp 0) 0 0).2.2.2.1 rfl⟩

/-- The session state observed by `Game._handle_takeback`: the takeback
counter, the board (as its ply count — the rules-engine collaborator
`Lichess_Game.takeback` rolls it back one ply), and whether a MoveTask is in
flight. -/
structure TakebackState where
  takebackCount : ℕ
  boardPlies : ℕ
  moveTaskActive : Bool
deriving DecidableEq, Repr

/-- The outbound reply sent through `api.handle_takeback(game_id, ·)`. -/
inductive TakebackReply where
  | declined
  | accepted
deriving DecidableEq, Repr

/-- `Game._handle_takeback` (game.py lines 129–139).  When the counter is
below the maximum the accept request is issued, but the awaited API result
(`apiOk`) guards the rollback: only a confirmed accept cancels the in-flight
MoveTask, rolls the board back one ply and increments the counter. -/
def handle_takeback (maxTakebacks : ℕ) (apiOk : Bool) (s : TakebackState) :
    TakebackReply × TakebackState :=
  if s.takebackCount ≥ maxTakebacks then (.declined, s)
  else if apiOk then
    (.accepted,
      { takebackCount := s.takebackCount + 1,
        boardPlies := s.boardPlies - 1,
        moveTaskActive := false })
  else (.accepted, s)

/-- C7 (counterexample to the claim as stated): with the counter below the
maximum but the platform not confirming the accept request, the request is
accepted yet the counter stays 0 (not incremented to 1), and the board and the
in-flight MoveTask are untouched. -/
theorem takeback_api_failure_counterexample :
    (handle_takeback 3 false ⟨0, 5, true⟩).1 = .accepted ∧
    (handle_takeback 3 false ⟨0, 5, true⟩).2 = ⟨0, 5, true⟩ ∧
    (handle_takeback 3 false ⟨0, 5, true⟩).2.takebackCount ≠ 0 + 1 := by
  refine ⟨rfl, rfl, ?_⟩
  decide

/-- C7 (amended): a takeback with the counter at (or beyond) the configured
maximum is declined and leaves the counter and board unchanged; below the
maximum an accept is issued, and when the platform confirms it the in-flight
MoveTask is canceled, the board is rolled back one ply and the counter is
incremented by exactly one — while a non-confirmed accept leaves the state
unchanged. -/
theorem handle_takeback_spec (maxTakebacks : ℕ) (apiOk : Bool) (s : TakebackState) :
    (s.takebackCount ≥ maxTakebacks →
      handle_takeback maxTakebacks apiOk s = (.declined, s)) ∧
    (s.takebackCount < maxTakebacks → apiOk = true →
      (handle_takeback maxTakebacks apiOk s).1 = .accepted ∧
      (handle_takeback maxTakebacks apiOk s).2.takebackCount = s.takebackCount + 1 ∧
      (handle_takeback maxTakebacks apiOk s).2.boardPlies = s.boardPlies - 1 ∧
      (handle_takeback maxTakebacks apiOk s).2.moveTaskActive = false) ∧
    (s.takebackCount < maxTakebacks → apiOk = false →
      handle_takeback maxTakebacks apiOk s = (.accepted, s)) := by
  refine ⟨?_, ?_, ?_⟩
  · intro h
    unfold handle_takeback
    rw [if_pos h]
  · intro h hok
    have hn : ¬ s.takebackCount ≥ maxTakebacks := not_le_of_lt h
    unfold handle_takeback
    rw [if_neg hn, hok, if_pos rfl]
    exact ⟨rfl, rfl, rfl, rfl⟩
  · intro h hok
    have hn : ¬ s.takebackCount ≥ maxTakebacks := not_le_of_lt h
    unfold handle_takeback
    rw [if_neg hn, hok]
    simp

/-- Witness for `handle_takeback_spec` at concrete inputs. -/
theorem handle_takeback_spec_witness :
    handle_takeback 2 true ⟨2, 7, false⟩ = (.declined, ⟨2, 7, false⟩) ∧
    (handle_takeback 2 true ⟨1, 7, true⟩).2.takebackCount = 1 + 1 := by
  refine ⟨(handle_takeback_spec 2 true ⟨2, 7, false⟩).1 (by decide), ?_⟩
  exact ((handle_takeback_spec 2 true ⟨1, 7, true⟩).2.1 (by decide) rfl).2.1

/-- The move cache of `Game` (game.py lines 27–28): the FEN of the board at
the last engine request and the move produced for it. -/
structure MoveCache where
  lastFen : Option String
  lastMove : Option ℕ
deriving DecidableEq, Repr

/-- `Game._make_move` (game.py lines 141–148): when the board's FEN equals
the cached FEN and a cached move exists, reuse it without invoking the engine;
otherwise invoke the engine (modelled as a pure oracle from FENs to moves) and
refresh the cache.  Returns (move, engineInvoked, new cache). -/
def make_move_cached (engine : String → ℕ) (s : MoveCache) (fen : String) :
    ℕ × Bool × MoveCache :=
  match s.lastMove with
  | some m =>
      if s.lastFen = some fen then (m, false, s)
      else
        let mv := engine fen
        (mv, true, { lastFen := some fen, lastMove := some mv })
  | none =>
      let mv := engine fen
      (mv, true, { lastFen := some fen, lastMove := some mv })

/-- C8: two consecutive move requests against a board whose FEN is unchanged
(and no intervening update) return the identical move, the second without
invoking the engine, and leave the cache unchanged. -/
theorem make_move_idempotent (engine : String → ℕ) (s : MoveCache) (fen : String) :
    (make_move_cached engine (make_move_cached engine s fen).2.2 fen).1 =
      (make_move_cached engine s fen).1 ∧
    (make_move_cached engine (make_move_cached engine s fen).2.2 fen).2.1 = false ∧
    (make_move_cached engine (make_move_cached engine s fen).2.2 fen).2.2 =
      (make_move_cached engine s fen).2.2 := by
  unfold make_move_cached
  match hm : s.lastMove with
  | some m =>
      by_cases hfen : s.lastFen = some fen
      · simp [hm, hfen]
      · simp [hm, hfen]
  | none =>
      simp

/-- Winner side of a terminal event (the event's truthy `winner` field). -/
inductive GWinner where
  | white
  | black
deriving DecidableEq, Repr

/-- The final board predicates `_print_result_message` consults through the
rules-engine collaborator (`is_fifty_moves`, `is_repetition`,
`is_insufficient_material`, `is_variant_draw`). -/
structure BoardFlags where
  isFiftyMoves : Bool
  isRepetition : Bool
  isInsufficientMaterial : Bool
  isVariantDraw : Bool
deriving DecidableEq, Repr

/-- Player names used in the outcome messages. -/
structure GameNames where
  whiteName : String
  blackName : String
  username : String
deriving DecidableEq, Repr

/-- The observable classification produced by `Game._print_result_message`:
the outcome message, the two score strings, whether the game was recorded as
aborted, and whether the session was ejected from its tournament. -/
structure ResultClassification where
  message : String
  whiteResult : String
  blackResult : String
  wasAborted : Bool
  ejected : Bool
deriving DecidableEq, Repr

/-- `Game._print_result_message` (game.py lines 173–236), restricted to its
observable classification (the surrounding line also prints identifiers and a
separator, which is presentation only).  `wtime` is the event's `wtime` field,
tested for truthiness in the drawn `outoftime` case. -/
def classifyResult (names : GameNames) (winner : Option GWinner) (status : String)
    (flags : BoardFlags) (wtime : ℕ) : ResultClassification :=
  match winner with
  | some w =>
      let base := (if w = .white then names.whiteName else names.blackName) ++ " won"
      let loser := if w = .white then names.blackName else names.whiteName
      let whiteResult := if w = .white then "1" else "0"
      let blackResult := if w = .white then "0" else "1"
      let message :=
        if status = "mate" then base ++ " by checkmate!"
        else if status = "outoftime" then base ++ "! " ++ loser ++ " ran out of time."
        else if status = "resign" then base ++ "! " ++ loser ++ " resigned."
        else if status = "variantEnd" then base ++ " by variant rules!"
        else if status = "timeout" then base ++ "! " ++ loser ++ " timed out."
        else if status = "noStart" then base ++ "! " ++ loser ++ " has not started the game."
        else base
      { message := message, whiteResult := whiteResult, blackResult := blackResult,
        wasAborted := false,
        ejected := status = "noStart" ∧ loser = names.username }
  | none =>
      if status = "draw" then
        let message :=
          if flags.isFiftyMoves then "Game drawn by 50-move rule."
          else if flags.isRepetition then "Game drawn by threefold repetition."
          else if flags.isInsufficientMaterial then "Game drawn due to insufficient material."
          else if flags.isVariantDraw then "Game drawn by variant rules."
          else "Game drawn by agreement."
        { message := message, whiteResult := "1/2", blackResult := "1/2",
          wasAborted := false, ejected := false }
      else if status = "stalemate" then
        { message := "Game drawn by stalemate.", whiteResult := "1/2", blackResult := "1/2",
          wasAborted := false, ejected := false }
      else if status = "outoftime" then
        let player := if wtime ≠ 0 then names.blackName else names.whiteName
        { message := "Game drawn. " ++ player ++ " ran out of time.",
          whiteResult := "1/2", blackResult := "1/2",
          wasAborted := false, ejected := false }
      else if status = "insufficientMaterialClaim" then
        { message := "Game drawn due to insufficient material claim.",
          whiteResult := "1/2", blackResult := "1/2",
          wasAborted := false, ejected := false }
      else
        { message := "Game aborted.", whiteResult := "X", blackResult := "X",
          wasAborted := true, ejected := false }

/-- C9 (counterexample to the claim as stated): the terminal status "cheat" is
not among the enumerated win/draw statuses, yet when a winner is reported the
code scores the game as a completed 1–0 win, not as an abort. -/
theorem unknown_status_with_winner_counterexample :
    (classifyResult ⟨"W", "B", "W"⟩ (some .white) "cheat" ⟨false, false, false, false⟩ 0).wasAborted
      = false ∧
    (classifyResult ⟨"W", "B", "W"⟩ (some .white) "cheat" ⟨false, false, false, false⟩ 0).whiteResult
      = "1" ∧
    (classifyResult ⟨"W", "B", "W"⟩ (some .white) "cheat" ⟨false, false, false, false⟩ 0).blackResult
      = "0" ∧
    ("1" : String) ≠ "X" := by
  refine ⟨rfl, rfl, rfl, by decide⟩

/-- C9 (amended): the classification is a pure mapping from the terminal event
and final board to the outcome: status "draw" on a board satisfying the
fifty-move rule yields the fifty-move message; status "mate" with winner white
states that White won by checkmate (scored 1–0); a terminal status with NO
reported winner and not among the enumerated draw statuses is classified as an
abort with both players scored X; with a reported winner the game is always
scored as a completed win for that side, whatever the status. -/
theorem classify_result_spec (names : GameNames) (flags : BoardFlags)
    (status : String) (wtime : ℕ) (w : GWinner) :
    (flags.isFiftyMoves = true →
      (classifyResult names none "draw" flags wtime).message = "Game drawn by 50-move rule.") ∧
    ((classifyResult names (some .white) "mate" flags wtime).message =
        names.whiteName ++ " won by checkmate!" ∧
      (classifyResult names (some .white) "mate" flags wtime).whiteResult = "1" ∧
      (classifyResult names (some .white) "mate" flags wtime).blackResult = "0") ∧
    (status ≠ "draw" → status ≠ "stalemate" → status ≠ "outoftime" →
      status ≠ "insufficientMaterialClaim" →
      classifyResult names none status flags wtime =
        { message := "Game aborted.", whiteResult := "X", blackResult := "X",
          wasAborted := true, ejected := false }) ∧
    ((classifyResult names (some w) status flags wtime).wasAborted = false ∧
      (classifyResult names (some w) status flags wtime).whiteResult =
        (if w = .white then "1" else "0") ∧
      (classifyResult names (some w) status flags wtime).blackResult =
        (if w = .white then "0" else "1")) := by
  refine ⟨?_, ?_, ?_, ?_⟩
  · intro h
    simp [classifyResult, h]
  · refine ⟨?_, rfl, rfl⟩
    show names.whiteName ++ " won" ++ " by checkmate!" = names.whiteName ++ " won by checkmate!"
    rw [String.append_assoc]
    congr 1
  · intro h1 h2 h3 h4
    simp only [classifyResult, if_neg h1, if_neg h2, if_neg h3, if_neg h4]
  · exact ⟨rfl, rfl, rfl⟩

/-- Witness for `classify_result_spec` at concrete inputs. -/
theorem classify_result_spec_witness :
    (classifyResult ⟨"W", "B", "U"⟩ none "draw" ⟨true, false, false, false⟩ 0).message =
      "Game drawn by 50-move rule." ∧
    classifyResult ⟨"W", "B", "U"⟩ none "aborted" ⟨false, false, false, false⟩ 0 =
      { message := "Game aborted.", whiteResult := "X", blackResult := "X",
        wasAborted := true, ejected := false } :=
  ⟨(classify_result_spec ⟨"W", "B", "U"⟩ ⟨true, false, false, false⟩ "x" 0 .white).1 rfl,
   (classify_result_spec ⟨"W", "B", "U"⟩ ⟨false, false, false, false⟩ "aborted" 0 .white).2.2.1
     (by decide) (by decide) (by decide) (by decide)⟩

/-- Status of a MoveTask created during a session: still running, completed,
or cancelled. -/
inductive TStatus where
  | active
  | done
  | cancelled
deriving DecidableEq, Repr

/-- The session-loop state of `Game.run` relevant to MoveTask scheduling:
every MoveTask created so far (with its current status), the `self.move_task`
reference (an index into `tasks`), the takeback counter, and whether the loop
has ended. -/
structure SessionState where
  tasks : List TStatus
  ptr : Option ℕ
  takebacks : ℕ
  finished : Bool
deriving DecidableEq, Repr

/-- `self.move_task.cancel()` guarded by `if self.move_task:`: marks the
referenced task cancelled when it is still running (cancelling a completed
asyncio task is a no-op), leaving the reference itself unchanged. -/
def cancelPtr (s : SessionState) : SessionState :=
  match s.ptr with
  | some i =>
      if s.tasks[i]? = some TStatus.active then
        { s with tasks := s.tasks.set i TStatus.cancelled }
      else s
  | none => s

/-- `self.move_task is None or self.move_task.done()` (game.py line 102). -/
def canStart (s : SessionState) : Bool :=
  match s.ptr with
  | none => true
  | some i => decide (s.tasks[i]? ≠ some TStatus.active)

/-- The takeback branch of the loop body (game.py lines 85–86 and 129–139):
below the configured maximum, a platform-confirmed accept cancels the
in-flight MoveTask, clears the reference and increments the counter. -/
def stepTakeback (maxTb : ℕ) (apiOk : Bool) (s : SessionState) : SessionState :=
  if s.takebacks ≥ maxTb then s
  else if apiOk then
    { cancelPtr s with ptr := none, takebacks := s.takebacks + 1 }
  else s

/-- One transition seen by the session loop: an incoming game event (takeback
flag with its API confirmation, the collaborator's board-changed report, and
whether the status is terminal), or the internal completion of the running
MoveTask (`_make_move` clearing `self.move_task` as it returns). -/
inductive GEvent where
  | update (takeback apiOk hasUpdated terminal : Bool)
  | taskDone
deriving DecidableEq, Repr

/-- One iteration of the `Game.run` event loop (game.py lines 58–103) plus the
task-completion transition.  Returns the new state and whether a new MoveTask
was started (line 102: `has_updated and (self.move_task is None or
self.move_task.done())`). -/
def stepEvent (maxTb : ℕ) (s : SessionState) : GEvent → SessionState × Bool
  | .taskDone =>
      match s.ptr with
      | some i =>
          if s.tasks[i]? = some TStatus.active then
            ({ s with tasks := s.tasks.set i TStatus.done, ptr := none }, false)
          else (s, false)
      | none => (s, false)
  | .update takeback apiOk hasUpdated terminal =>
      if s.finished then (s, false)
      else
        let s1 := if takeback then stepTakeback maxTb apiOk s else s
        if terminal then ({ cancelPtr s1 with finished := true }, false)
        else if hasUpdated && canStart s1 then
          ({ s1 with tasks := s1.tasks ++ [TStatus.active], ptr := some s1.tasks.length }, true)
        else (s1, false)

/-- The loop's entry state (game.py lines 48–51): a first MoveTask is created
when it is our turn, otherwise pondering starts and no task exists. -/
def initSession (ourTurn : Bool) : SessionState :=
  if ourTurn then ⟨[TStatus.active], some 0, 0, false⟩
  else ⟨[], none, 0, false⟩

/-- The session state after processing a sequence of loop transitions. -/
def runSession (maxTb : ℕ) (ourTurn : Bool) (events : List GEvent) : SessionState :=
  events.foldl (fun s e => (stepEvent maxTb s e).1) (initSession ourTurn)

/-- Number of non-terminal (still running) MoveTasks. -/
def activeCount (s : SessionState) : ℕ :=
  s.tasks.countP (· == TStatus.active)

/-- The scheduling invariant: every still-running task is the one referenced
by `self.move_task`. -/
def Inv (s : SessionState) : Prop :=
  ∀ i, i < s.tasks.length → s.tasks[i]? = some TStatus.active → s.ptr = some i

theorem inv_apply {s : SessionState} (h : Inv s) {i : ℕ}
    (hact : s.tasks[i]? = some TStatus.active) : s.ptr = some i := by
  rcases List.getElem?_eq_some.mp hact with ⟨hlt, _⟩
  exact h i hlt hact

theorem no_active_iff_count {s : SessionState} :
    (∀ i : ℕ, s.tasks[i]? ≠ some TStatus.active) ↔ activeCount s = 0 := by
  unfold activeCount
  rw [List.countP_eq_zero]
  constructor
  · intro h a ha hab
    have hba : a = TStatus.active := by
      cases a <;> simp_all
    subst hba
    obtain ⟨i, hlt, hget⟩ := List.getElem_of_mem ha
    exact h i (List.getElem?_eq_some.mpr ⟨hlt, hget⟩)
  · intro h i hact
    rcases List.getElem?_eq_some.mp hact with ⟨hlt, hget⟩
    have hmem : TStatus.active ∈ s.tasks := hget ▸ List.getElem_mem hlt
    exact (h _ hmem) (by decide)

/-- Index shift used when peeling the head off a pointed list. -/
def predIdx : Option ℕ → Option ℕ
  | some (k+1) => some k
  | _ => none

theorem countP_active_le_one :
    ∀ (l : List TStatus) (p : Option ℕ),
      (∀ i, i < l.length → l[i]? = some TStatus.active → p = some i) →
      l.countP (· == TStatus.active) ≤ 1 := by
  intro l
  induction l with
  | nil => intro p _; simp
  | cons x xs ih =>
      intro p h
      by_cases hx : x = TStatus.active
      · subst hx
        have hp : p = some 0 := h 0 (by simp) (by simp)
        have hxs : xs.countP (· == TStatus.active) = 0 := by
          rw [List.countP_eq_zero]
          intro a ha hab
          have hba : a = TStatus.active := by
            cases a <;> simp_all
          subst hba
          obtain ⟨j, hj, hget⟩ := List.getElem_of_mem ha
          have h2 := h (j+1) (by simpa using Nat.succ_lt_succ hj)
            (by rw [List.getElem?_cons_succ]; exact List.getElem?_eq_some.mpr ⟨hj, hget⟩)
          rw [hp] at h2
          simp at h2
        rw [List.countP_cons, hxs]
        simp
      · have hx' : (x == TStatus.active) = false := by
          cases x <;> simp_all
        have hstep : ∀ i, i < xs.length → xs[i]? = some TStatus.active →
            predIdx p = some i := by
          intro i hi hact
          have h2 := h (i+1) (by simpa using Nat.succ_lt_succ hi)
            (by rw [List.getElem?_cons_succ]; exact hact)
          rw [h2]
          rfl
        have ih' := ih _ hstep
        rw [List.countP_cons, hx']
        simpa using ih'

theorem active_le_one_of_inv {s : SessionState} (h : Inv s) : activeCount s ≤ 1 :=
  countP_active_le_one s.tasks s.ptr h

theorem cancelPtr_none {s : SessionState} (hp : s.ptr = none) : cancelPtr s = s := by
  unfold cancelPtr
  rw [hp]

theorem cancelPtr_some {s : SessionState} {j : ℕ} (hp : s.ptr = some j) :
    cancelPtr s =
      if s.tasks[j]? = some TStatus.active then
        { s with tasks := s.tasks.set j TStatus.cancelled }
      else s := by
  unfold cancelPtr
  rw [hp]

theorem cancelPtr_no_active {s : SessionState} (h : Inv s) :
    ∀ i : ℕ, (cancelPtr s).tasks[i]? ≠ some TStatus.active := by
  intro i hact
  cases hp : s.ptr with
  | none =>
      rw [cancelPtr_none hp] at hact
      have := inv_apply h hact
      rw [hp] at this
      exact absurd this (by simp)
  | some j =>
      rw [cancelPtr_some hp] at hact
      by_cases hj : s.tasks[j]? = some TStatus.active
      · rw [if_pos hj] at hact
        dsimp only at hact
        by_cases hij : i = j
        · subst hij
          rcases List.getElem?_eq_some.mp hj with ⟨hlt, _⟩
          rw [List.getElem?_set_self hlt] at hact
          simp at hact
        · rw [List.getElem?_set_ne (Ne.symm hij)] at hact
          have := inv_apply h hact
          rw [hp] at this
          injection this with h'
          exact hij h'.symm
      · rw [if_neg hj] at hact
        have := inv_apply h hact
        rw [hp] at this
        injection this with h'
        exact hj (by rw [h']; exact hact)

theorem cancelPtr_cancels {s : SessionState} (h : Inv s) {i : ℕ}
    (hact : s.tasks[i]? = some TStatus.active) :
    (cancelPtr s).tasks[i]? = some TStatus.cancelled := by
  have hp := inv_apply h hact
  rcases List.getElem?_eq_some.mp hact with ⟨hlt, _⟩
  rw [cancelPtr_some hp, if_pos hact]
  exact List.getElem?_set_self hlt

theorem no_active_of_canStart {s : SessionState} (h : Inv s) (hc : canStart s = true) :
    ∀ i : ℕ, s.tasks[i]? ≠ some TStatus.active := by
  intro i hact
  have hp := inv_apply h hact
  unfold canStart at hc
  rw [hp] at hc
  simp only [decide_eq_true_eq] at hc
  exact hc hact

theorem canStart_iff_count {s : SessionState} (h : Inv s) :
    canStart s = true ↔ activeCount s = 0 := by
  constructor
  · intro hc
    exact no_active_iff_count.mp (no_active_of_canStart h hc)
  · intro hz
    have hno := no_active_iff_count.mpr hz
    unfold canStart
    cases hp : s.ptr with
    | none => rfl
    | some i =>
        simp only [decide_eq_true_eq]
        exact hno i

theorem inv_stepTakeback {maxTb : ℕ} {apiOk : Bool} {s : SessionState} (h : Inv s) :
    Inv (stepTakeback maxTb apiOk s) := by
  unfold stepTakeback
  split_ifs with h1 h2
  · exact h
  · intro i _ hact
    exact absurd hact (cancelPtr_no_active h i)
  · exact h

theorem stepEvent_update_eq (maxTb : ℕ) (s : SessionState) (tb ok upd term : Bool) :
    stepEvent maxTb s (.update tb ok upd term) =
      (if s.finished then (s, false)
       else if term then
         ({ cancelPtr (if tb then stepTakeback maxTb ok s else s) with finished := true }, false)
       else if upd && canStart (if tb then stepTakeback maxTb ok s else s) then
         ({ (if tb then stepTakeback maxTb ok s else s) with
            tasks := (if tb then stepTakeback maxTb ok s else s).tasks ++ [TStatus.active],
            ptr := some (if tb then stepTakeback maxTb ok s else s).tasks.length }, true)
       else ((if tb then stepTakeback maxTb ok s else s), false)) := rfl

theorem stepEvent_taskDone_none {maxTb : ℕ} {s : SessionState} (hp : s.ptr = none) :
    stepEvent maxTb s .taskDone = (s, false) := by
  unfold stepEvent
  rw [hp]

theorem stepEvent_taskDone_some {maxTb : ℕ} {s : SessionState} {i : ℕ}
    (hp : s.ptr = some i) :
    stepEvent maxTb s .taskDone =
      if s.tasks[i]? = some TStatus.active then
        ({ s with tasks := s.tasks.set i TStatus.done, ptr := none }, false)
      else (s, false) := by
  unfold stepEvent
  rw [hp]

theorem stepTakeback_confirmed {maxTb : ℕ} {s : SessionState}
    (hlt : s.takebacks < maxTb) :
    stepTakeback maxTb true s =
      { cancelPtr s with ptr := none, takebacks := s.takebacks + 1 } := by
  unfold stepTakeback
  rw [if_neg (not_le_of_lt hlt), if_pos rfl]

theorem stepTakeback_cancelled {maxTb : ℕ} {ok : Bool} {s : SessionState} (h : Inv s)
    {i : ℕ} (hact : s.tasks[i]? = some TStatus.active) :
    (cancelPtr (stepTakeback maxTb ok s)).tasks[i]? = some TStatus.cancelled := by
  unfold stepTakeback
  split_ifs with h1 h2
  · exact cancelPtr_cancels h hact
  · rw [cancelPtr_none rfl]
    exact cancelPtr_cancels h hact
  · exact cancelPtr_cancels h hact

theorem inv_stepEvent {maxTb : ℕ} {s : SessionState} (h : Inv s) (e : GEvent) :
    Inv (stepEvent maxTb s e).1 := by
  cases e with
  | taskDone =>
      cases hp : s.ptr with
      | none =>
          rw [stepEvent_taskDone_none hp]
          exact h
      | some i =>
          rw [stepEvent_taskDone_some hp]
          by_cases hi : s.tasks[i]? = some TStatus.active
          · rw [if_pos hi]
            intro k hk hact
            exfalso
            dsimp only at hact
            by_cases hki : k = i
            · subst hki
              rcases List.getElem?_eq_some.mp hi with ⟨hlt, _⟩
              rw [List.getElem?_set_self hlt] at hact
              simp at hact
            · rw [List.getElem?_set_ne (Ne.symm hki)] at hact
              have := inv_apply h hact
              rw [hp] at this
              injection this with h'
              exact hki h'.symm
          · rw [if_neg hi]
            exact h
  | update tb ok upd term =>
      rw [stepEvent_update_eq]
      by_cases hf : s.finished = true
      · rw [if_pos hf]
        exact h
      · rw [if_neg hf]
        have h1 : Inv (if tb then stepTakeback maxTb ok s else s) := by
          by_cases htb : tb = true
          · rw [if_pos htb]; exact inv_stepTakeback h
          · rw [if_neg htb]; exact h
        by_cases hterm : term = true
        · rw [if_pos hterm]
          intro i hlen hact
          exact absurd hact (cancelPtr_no_active h1 i)
        · rw [if_neg hterm]
          by_cases hst : (upd && canStart (if tb then stepTakeback maxTb ok s else s)) = true
          · rw [if_pos hst]
            intro i hlen hact
            dsimp only at hlen hact ⊢
            rw [List.getElem?_append] at hact
            by_cases hi : i < (if tb then stepTakeback maxTb ok s else s).tasks.length
            · rw [if_pos hi] at hact
              have hcs : canStart (if tb then stepTakeback maxTb ok s else s) = true :=
                (Bool.and_eq_true_iff.mp hst).2
              exact absurd hact (no_active_of_canStart h1 hcs i)
            · rw [if_neg hi] at hact
              have hlen' : i < (if tb then stepTakeback maxTb ok s else s).tasks.length + 1 := by
                simpa [List.length_append] using hlen
              have hi' : i = (if tb then stepTakeback maxTb ok s else s).tasks.length := by
                omega
              rw [hi']
          · rw [if_neg hst]
            exact h1

theorem inv_initSession (ourTurn : Bool) : Inv (initSession ourTurn) := by
  cases ourTurn with
  | false =>
      intro i hlen hact
      simp [initSession] at hlen
  | true =>
      intro i hlen hact
      have hi : i = 0 := Nat.lt_one_iff.mp (by simpa [initSession] using hlen)
      subst hi
      rfl

theorem inv_runSession (maxTb : ℕ) (ourTurn : Bool) (events : List GEvent) :
    Inv (runSession maxTb ourTurn events) := by
  have main : ∀ (es : List GEvent) (s : SessionState), Inv s →
      Inv (es.foldl (fun s e => (stepEvent maxTb s e).1) s) := by
    intro es
    induction es with
    | nil => intro s hs; exact hs
    | cons e es ih =>
        intro s hs
        exact ih _ (inv_stepEvent hs e)
  exact main events _ (inv_initSession ourTurn)

instance instDecidableInv (s : SessionState) : Decidable (Inv s) := by
  unfold Inv
  infer_instance

/-- C1: over every sequence of loop transitions from either entry state, at
most one non-terminal MoveTask exists at any instant; within one loop
iteration (non-finished, non-terminal) a new move computation is started iff
the collaborator reported a board change and no MoveTask is active after the
event's own takeback processing; a terminal event cancels the running task;
and a confirmed takeback (below the maximum) cancels the running task, in both
cases before any task the same event could start. -/
theorem session_single_move_task (maxTb : ℕ) (ourTurn : Bool) (events : List GEvent) :
    activeCount (runSession maxTb ourTurn events) ≤ 1 ∧
    (∀ (s : SessionState) (tb ok upd term : Bool), Inv s → s.finished = false →
      term = false →
      ((stepEvent maxTb s (.update tb ok upd term)).2 = true ↔
        (upd = true ∧ activeCount (if tb then stepTakeback maxTb ok s else s) = 0))) ∧
    (∀ (s : SessionState) (tb ok upd : Bool) (i : ℕ), Inv s → s.finished = false →
      s.tasks[i]? = some TStatus.active →
      (stepEvent maxTb s (.update tb ok upd true)).1.tasks[i]? = some TStatus.cancelled) ∧
    (∀ (s : SessionState) (upd term : Bool) (i : ℕ), Inv s → s.finished = false →
      s.takebacks < maxTb → s.tasks[i]? = some TStatus.active →
      (stepEvent maxTb s (.update true true upd term)).1.tasks[i]? = some TStatus.cancelled) := by
  refine ⟨active_le_one_of_inv (inv_runSession maxTb ourTurn events), ?_, ?_, ?_⟩
  · intro s tb ok upd term hInv hf hterm
    have h1 : Inv (if tb then stepTakeback maxTb ok s else s) := by
      by_cases htb : tb = true
      · rw [if_pos htb]; exact inv_stepTakeback hInv
      · rw [if_neg htb]; exact hInv
    rw [stepEvent_update_eq, if_neg (by simp [hf]), if_neg (by simp [hterm])]
    by_cases hst : (upd && canStart (if tb then stepTakeback maxTb ok s else s)) = true
    · rw [if_pos hst]
      rcases Bool.and_eq_true_iff.mp hst with ⟨hu, hc⟩
      exact ⟨fun _ => ⟨hu, (canStart_iff_count h1).mp hc⟩, fun _ => rfl⟩
    · rw [if_neg hst]
      constructor
      · intro hfalse
        exact absurd hfalse (by simp)
      · rintro ⟨hu, hz⟩
        have hand : (upd && canStart (if tb then stepTakeback maxTb ok s else s)) = true :=
          Bool.and_eq_true_iff.mpr ⟨hu, (canStart_iff_count h1).mpr hz⟩
        exact absurd hand hst
  · intro s tb ok upd i hInv hf hact
    rw [stepEvent_update_eq, if_neg (by simp [hf]), if_pos rfl]
    by_cases htb : tb = true
    · rw [if_pos htb]
      exact stepTakeback_cancelled hInv hact
    · rw [if_neg htb]
      exact cancelPtr_cancels hInv hact
  · intro s upd term i hInv hf hmax hact
    rw [stepEvent_update_eq, if_neg (by simp [hf])]
    have hifT : (if (true : Bool) then stepTakeback maxTb true s else s) =
        stepTakeback maxTb true s := if_pos rfl
    rw [hifT, stepTakeback_confirmed hmax]
    have hc : (cancelPtr s).tasks[i]? = some TStatus.cancelled :=
      cancelPtr_cancels hInv hact
    by_cases hterm : term = true
    · rw [if_pos hterm]
      dsimp only
      rw [cancelPtr_none rfl]
      exact hc
    · rw [if_neg hterm]
      by_cases hst : (upd && canStart
          { cancelPtr s with ptr := none, takebacks := s.takebacks + 1 }) = true
      · rw [if_pos hst]
        dsimp only
        rcases List.getElem?_eq_some.mp hc with ⟨hlt, _⟩
        rw [List.getElem?_append, if_pos hlt]
        exact hc
      · rw [if_neg hst]
        exact hc

/-- Witness for `session_single_move_task` at concrete inputs. -/
theorem session_single_move_task_witness :
    activeCount (runSession 1 true [GEvent.update false false true false, GEvent.taskDone]) ≤ 1 ∧
    ((stepEvent 1 ⟨[TStatus.active], some 0, 0, false⟩ (.update false false true false)).2 = true ↔
      (true = true ∧ activeCount (if false then stepTakeback 1 false
        ⟨[TStatus.active], some 0, 0, false⟩ else ⟨[TStatus.active], some 0, 0, false⟩) = 0)) ∧
    (stepEvent 1 ⟨[TStatus.active], some 0, 0, false⟩
      (.update false false false true)).1.tasks[0]? = some TStatus.cancelled ∧
    (stepEvent 1 ⟨[TStatus.active], some 0, 0, false⟩
      (.update true true false false)).1.tasks[0]? = some TStatus.cancelled :=
  ⟨(session_single_move_task 1 true [GEvent.update false false true false, GEvent.taskDone]).1,
   (session_single_move_task 1 true []).2.1 ⟨[TStatus.active], some 0, 0, false⟩
     false false true false (by decide) rfl rfl,
   (session_single_move_task 1 true []).2.2.1 ⟨[TStatus.active], some 0, 0, false⟩
     false false false 0 (by decide) rfl rfl,
   (session_single_move_task 1 true []).2.2.2 ⟨[TStatus.active], some 0, 0, false⟩
     false false 0 (by decide) rfl (by decide) rfl⟩

end Spec2Proof
